import Mathlib

/-!
Verification of the antigravity reverse-proxy gateway against its design
specification.

The definitions below are a shallow embedding of the JavaScript sources:

* `src/src/format/openai-response-converter.js` — the non-streaming response
  converter `convertAnthropicToOpenAI` and the streaming transcoder
  `convertStreamToOpenAI` (modelled as a fold of a step function
  `processEvent` over the incoming event list; the lazy generator becomes an
  eager list transformer).
* `src/src/format/openai-request-converter.js` — `convertMessages` and its
  helpers (the request direction, Protocol B to neutral).
* `src/worker/src/index.js` — the HTTP boundary: `parseError`, the route
  dispatch in `fetch`, and `handleMessages`.
* `src/worker/src/account-manager.js` — `WorkerAccountManager`
  (`getTokenForAccount`, `getProjectForAccount`), with the manager state
  (accounts list, token cache, project cache) passed explicitly.
* `src/src/account-manager/project-discovery.js` — `discoverProject`,
  with the network `fetch` replaced by an explicit outcome oracle.

Modelling conventions: JavaScript strings are `String`, numbers that hold
timestamps or counters are `Int` or `Nat`, and `undefined`/`null` become
`Option`. JSON values are the small `Json` inductive below; the textual JSON
serialization performed by `JSON.stringify`/`formatSSE` is elided — chunks and
messages are kept in structural form, which preserves every distinction the
wire format makes. Asynchronous calls (`refreshAccessToken`, `fetch`) become
explicit outcome parameters. Helper modules absent from the snapshot
(`rate-limits.js`, `helpers.js`, `constants/shared.js`) are modelled from the
specification; each such definition is marked `Modelled from the spec:`.
-/

namespace AGProxy

/-- A small JSON value type (numbers simplified to `Int`; enough structure for
every claim, which never inspects numeric precision). -/
inductive Json where
  | null : Json
  | bool (b : Bool) : Json
  | num (n : Int) : Json
  | str (s : String) : Json
  | arr (items : List Json) : Json
  | obj (fields : List (String × Json)) : Json

/-- JavaScript `a || b` for optional strings: `undefined`, `null` and the
empty string are falsy and select the default. -/
def jsOr : Option String → String → String
  | some s, d => if s = "" then d else s
  | none, d => d

/-! ## Streaming events (neutral / Anthropic-shaped), from the stream consumed
by `convertStreamToOpenAI`. -/

/-- The `content_block` payload of a `content_block_start` event, as inspected
by the transcoder (`block?.type`). -/
inductive BlockKind where
  | thinking
  | text
  | toolUse (id name : String)
  | other
deriving DecidableEq

/-- The `delta` payload of a `content_block_delta` event. The tool-argument
fragment carries the `partial_json` string of the source. -/
inductive StreamDelta where
  | thinkingDelta (thinking : String)
  | textDelta (text : String)
  | inputJsonDelta (jsonFragment : String)
  | signatureDelta (signature : String)
  | other
deriving DecidableEq

/-- The payload of a neutral `error` event (`event.error` may be absent, and
each field may be absent). -/
structure ErrInfo where
  message : Option String
  etype : Option String
deriving DecidableEq

/-- Neutral streaming events, the tagged variant consumed by the transcoder
switch. `messageDelta` carries `delta.stop_reason` and, when the event has a
`usage` object, its `output_tokens` (already defaulted per `|| 0`). -/
inductive StreamEvent where
  | messageStart
  | contentBlockStart (block : BlockKind)
  | contentBlockDelta (delta : StreamDelta)
  | contentBlockStop
  | messageDelta (stopReason : Option String) (usageOutputTokens : Option Nat)
  | messageStop
  | error (payload : Option ErrInfo)
  | unknown
deriving DecidableEq

/-! ## OpenAI streaming chunks (output of the transcoder). -/

/-- The `delta` object of an emitted chunk. -/
inductive ChunkDelta where
  | roleContent (role content : String)
  | content (s : String)
  | toolCallStart (index : Int) (id name arguments : String)
  | toolCallArgs (index : Int) (arguments : String)
  | empty
deriving DecidableEq

/-- The `error` object attached to an error chunk (after the source defaults
the defaults of `event.error?.message` and `event.error?.type`
have been applied). -/
structure ChunkError where
  message : String
  etype : String
deriving DecidableEq

/-- One `data:` chunk of the emitted OpenAI SSE stream, in structural form
(the `formatSSE` JSON serialization is elided). `usage` is the
`completion_tokens`/`total_tokens` value of the final chunk when present. -/
structure DataChunk where
  id : String
  model : String
  delta : ChunkDelta
  finishReason : Option String
  usage : Option Nat
  chunkError : Option ChunkError
deriving DecidableEq

/-- An element of the emitted stream: either a data chunk or the literal
terminal marker line `data: [DONE]`. -/
inductive OutChunk where
  | data (c : DataChunk)
  | done
deriving DecidableEq

/-- Chunk with only a delta, as built by the plain `formatSSE` call sites. -/
def mkChunk (cid model : String) (delta : ChunkDelta) : OutChunk :=
  .data { id := cid, model := model, delta := delta,
          finishReason := none, usage := none, chunkError := none }

/-- The chunk emitted for a neutral `error` event: empty delta,
a `stop` finish reason, and the defaulted error payload. -/
def errorChunk (cid model : String) (payload : Option ErrInfo) : OutChunk :=
  .data { id := cid, model := model, delta := .empty,
          finishReason := some "stop", usage := none,
          chunkError := some
            { message := jsOr (payload.bind ErrInfo.message) "Unknown error",
              etype := jsOr (payload.bind ErrInfo.etype) "api_error" } }

/-- The final chunk emitted for a `message_delta` event. -/
def messageDeltaChunk (cid model finishReason : String) (usage : Option Nat) : OutChunk :=
  .data { id := cid, model := model, delta := .empty,
          finishReason := some finishReason, usage := usage, chunkError := none }

/-- Embedding of `mapStopReason` from `openai-response-converter.js`: any tool call forces
`tool_calls`, otherwise the Anthropic stop reason is mapped into the OpenAI
vocabulary with `stop` as the default. -/
def mapStopReason (stopReason : Option String) (hasToolCalls : Bool) : String :=
  if hasToolCalls || stopReason == some "tool_use" then "tool_calls"
  else if stopReason == some "end_turn" then "stop"
  else if stopReason == some "max_tokens" then "length"
  else if stopReason == some "stop_sequence" then "stop"
  else "stop"

/-- The mutable local state of the `convertStreamToOpenAI` generator. -/
structure ConvState where
  currentToolCallIndex : Int
  emittedRole : Bool
  inThinking : Bool
deriving DecidableEq

/-- The generator state at entry: `currentToolCallIndex = -1`,
`emittedRole = false`, `inThinking = false`. -/
def initConvState : ConvState :=
  { currentToolCallIndex := -1, emittedRole := false, inThinking := false }

/-- One iteration of the `for await … switch` body of `convertStreamToOpenAI`:
the state after the event together with the chunks yielded for it. -/
def processEvent (cid model : String) (s : ConvState) :
    StreamEvent → ConvState × List OutChunk
  | .messageStart =>
      ({ s with emittedRole := true },
       [mkChunk cid model (.roleContent "assistant" "")])
  | .contentBlockStart kind =>
      match kind with
      | .thinking =>
          ({ s with inThinking := true },
           [mkChunk cid model (.content "<thinking>\n")])
      | .toolUse id name =>
          ({ s with currentToolCallIndex := s.currentToolCallIndex + 1 },
           [mkChunk cid model
              (.toolCallStart (s.currentToolCallIndex + 1) id name "")])
      | _ => (s, [])
  | .contentBlockDelta d =>
      match d with
      | .thinkingDelta t => (s, [mkChunk cid model (.content t)])
      | .textDelta t => (s, [mkChunk cid model (.content t)])
      | .inputJsonDelta f =>
          (s, [mkChunk cid model (.toolCallArgs s.currentToolCallIndex f)])
      | _ => (s, [])
  | .contentBlockStop =>
      if s.inThinking then
        ({ s with inThinking := false },
         [mkChunk cid model (.content "\n</thinking>\n")])
      else (s, [])
  | .messageDelta stopReason usage =>
      (s, [messageDeltaChunk cid model
             (mapStopReason stopReason (decide (0 ≤ s.currentToolCallIndex)))
             usage])
  | .messageStop => (s, [.done])
  | .error payload => (s, [errorChunk cid model payload, .done])
  | .unknown => (s, [])

/-- The transcoder loop: concatenation of the chunks yielded for each event,
threading the generator state. -/
def convertGo (cid model : String) : ConvState → List StreamEvent → List OutChunk
  | _, [] => []
  | s, e :: es =>
      let r := processEvent cid model s e
      r.2 ++ convertGo cid model r.1 es

/-- The generator state after consuming a list of events. -/
def runState (cid model : String) : ConvState → List StreamEvent → ConvState
  | s, [] => s
  | s, e :: es => runState cid model (processEvent cid model s e).1 es

/-- Embedding of `convertStreamToOpenAI` from `openai-response-converter.js`, as a function
from the full neutral event list to the full chunk list (`cid` stands for the
randomly generated `chatcmpl-…` id, `model` for the model name). -/
def convertStreamToOpenAI (cid model : String) (events : List StreamEvent) : List OutChunk :=
  convertGo cid model initConvState events

/-- Recognizes the terminal `[DONE]` marker. -/
def isDoneChunk : OutChunk → Bool
  | .done => true
  | _ => false

/-- Recognizes a chunk that carries an `error` object. -/
def carriesError : OutChunk → Bool
  | .data c => c.chunkError.isSome
  | .done => false

/-! ## Non-streaming response conversion (`convertAnthropicToOpenAI`). -/

/-- A content block of a neutral (Anthropic-shaped) response, as inspected by
`convertContentBlocks` (`block.type`). `toolUse` keeps `block.input` as an
optional JSON value (`undefined` possible). -/
inductive RespBlock where
  | text (t : String)
  | thinking (t : String)
  | toolUse (id name : String) (input : Option Json)
  | other

/-- An entry of the OpenAI `tool_calls` array. The source serializes the
input as `JSON.stringify(block.input || {})`; the model keeps the defaulted
value in structural form. -/
structure ToolCall where
  id : String
  name : String
  argsJson : Json

/-- A neutral response as destructured by `convertAnthropicToOpenAI`
(`id`, `content`, `stop_reason`, `usage`). Usage token counts are kept after
their `|| 0` defaulting. -/
structure AnthropicResponse where
  id : Option String
  content : List RespBlock
  stopReason : Option String
  usageInputTokens : Nat
  usageCacheReadInputTokens : Nat
  usageOutputTokens : Nat

/-- Embedding of `convertContentBlocks`: text parts (thinking wrapped in
`<thinking>`/`</thinking>` markers) joined with newlines, and the tool-call
array, in block order. -/
def convertContentBlocks (blocks : List RespBlock) : Option String × List ToolCall :=
  let textParts := blocks.filterMap fun b => match b with
    | .text t => some t
    | .thinking t => some ("<thinking>\n" ++ t ++ "\n</thinking>")
    | _ => none
  let toolCalls := blocks.filterMap fun b => match b with
    | .toolUse id name input => some ⟨id, name, input.getD (Json.obj [])⟩
    | _ => none
  (if textParts.length > 0 then some (String.intercalate "\n" textParts) else none,
   toolCalls)

/-- The structural content of the converted OpenAI chat-completion response
(the random `chatcmpl-…` id and the `created` timestamp are elided). -/
structure OpenAIResponse where
  model : String
  content : Option String
  toolCalls : List ToolCall
  finishReason : String
  promptTokens : Nat
  completionTokens : Nat
  totalTokens : Nat

/-- Embedding of `convertAnthropicToOpenAI` from `openai-response-converter.js`. -/
def convertAnthropicToOpenAI (resp : AnthropicResponse) (model : String) : OpenAIResponse :=
  let r := convertContentBlocks resp.content
  { model := model,
    content := r.1,
    toolCalls := r.2,
    finishReason := mapStopReason resp.stopReason (decide (0 < r.2.length)),
    promptTokens := resp.usageInputTokens + resp.usageCacheReadInputTokens,
    completionTokens := resp.usageOutputTokens,
    totalTokens := resp.usageInputTokens + resp.usageCacheReadInputTokens
      + resp.usageOutputTokens }

/-! ## Request conversion (`openai-request-converter.js`, `convertMessages`). -/

/-- One part of an OpenAI content array. -/
inductive OAIPart where
  | text (t : String)
  | imageUrl (url : String)
  | other

/-- The `content` field of an OpenAI message: a string, a part array, or
`null`/absent. -/
inductive OAIContent where
  | str (s : String)
  | parts (ps : List OAIPart)
  | nullContent

/-- The `arguments` field of an OpenAI tool call: a JSON-encoded string, an
already-structured value, or absent. -/
inductive ToolArgs where
  | str (s : String)
  | json (j : Json)
  | undef

/-- One entry of an OpenAI `tool_calls` array (`callType` is
`toolCall.type`). -/
structure OAIToolCall where
  id : String
  callType : String
  name : String
  arguments : ToolArgs

/-- An OpenAI chat message as inspected by `convertMessages`. An absent
`tool_calls` array is the empty list. -/
structure OAIMessage where
  role : String
  content : OAIContent
  toolCalls : List OAIToolCall
  toolCallId : Option String

/-- A neutral (Anthropic-shaped) content block produced by the request
converter. `toolResult` keeps the original content; the source stores
`JSON.stringify` of non-string content, a serialization this model elides. -/
inductive AnthBlock where
  | text (t : String)
  | imageBase64 (mediaType data : String)
  | imageUrl (url : String)
  | toolUse (id name : String) (input : Json)
  | toolResult (toolUseId : Option String) (content : OAIContent)

/-- The `content` of a converted neutral message: either a plain string or a
block list. -/
inductive AnthContent where
  | str (s : String)
  | blocks (bs : List AnthBlock)

/-- A converted neutral message. -/
structure AnthMessage where
  role : String
  content : AnthContent

/-- The argument value given to a `tool_use` block: string arguments are
parsed with the supplied JSON parser (`JSON.parse` oracle); a parse failure
preserves the raw string under `{ raw: … }`; structured arguments pass
through; absent arguments default to the empty object. -/
def toolArgsValue (parseJson : String → Option Json) : ToolArgs → Json
  | .str s =>
      match parseJson s with
      | some v => v
      | none => Json.obj [("raw", Json.str s)]
  | .json j => j
  | .undef => Json.obj []

/-- Data-URL destructuring of `convertContentArray`, modelling the regex
`^data:([^;]+);base64,(.+)$` (the media type is the nonempty run before the
first semicolon, followed by the literal `;base64,` and nonempty data). -/
def parseDataUrl (url : String) : Option (String × String) :=
  let cs := url.toList
  match cs with
  | 'd' :: 'a' :: 't' :: 'a' :: ':' :: rest =>
      let mt := rest.takeWhile (fun c => c ≠ ';')
      if mt.isEmpty then none
      else
        match rest.drop mt.length with
        | ';' :: 'b' :: 'a' :: 's' :: 'e' :: '6' :: '4' :: ',' :: dat =>
            if dat.isEmpty then none
            else some (String.mk mt, String.mk dat)
        | _ => none
  | _ => none

/-- Embedding of `convertContentArray`: text parts become text blocks; image parts become
base64 or URL image sources; other parts are dropped. -/
def convertContentArray (ps : List OAIPart) : List AnthBlock :=
  ps.filterMap fun p => match p with
    | .text t => some (.text t)
    | .imageUrl url =>
        if url.startsWith "data:" then
          match parseDataUrl url with
          | some r => some (.imageBase64 r.1 r.2)
          | none => none
        else some (.imageUrl url)
    | .other => none

/-- The text blocks extracted from an assistant message that carries tool
calls (`if (msg.content)` branch: nonempty strings with nonempty trim, and
text parts with nonempty trim). -/
def assistantTextBlocks : OAIContent → List AnthBlock
  | .str s => if s ≠ "" && s.trim ≠ "" then [.text s] else []
  | .parts ps => ps.filterMap fun p => match p with
      | .text t => if t.trim ≠ "" then some (.text t) else none
      | _ => none
  | .nullContent => []

/-- Embedding of `convertMessages` from `openai-request-converter.js`, parameterized by the
`JSON.parse` oracle. -/
def convertMessages (parseJson : String → Option Json) (messages : List OAIMessage) :
    List AnthMessage :=
  messages.map fun msg =>
    if msg.role = "tool" then
      { role := "user",
        content := .blocks [.toolResult msg.toolCallId msg.content] }
    else if msg.role = "assistant" && !msg.toolCalls.isEmpty then
      { role := "assistant",
        content := .blocks (assistantTextBlocks msg.content
          ++ msg.toolCalls.filterMap fun tc =>
              if tc.callType = "function" then
                some (.toolUse tc.id tc.name (toolArgsValue parseJson tc.arguments))
              else none) }
    else
      { role := if msg.role = "assistant" then "assistant" else "user",
        content := match msg.content with
          | .str s => .str s
          | .parts ps => .blocks (convertContentArray ps)
          | .nullContent =>
              if msg.role = "assistant" then .blocks [] else .str "" }

/-! ## The HTTP boundary error classifier (`parseError` in
`worker/src/index.js`). String `includes` and the regexes are modelled
character by character. -/

/-- Whether the first list is a (character-exact) prefix of the second. -/
def charsHasPfx : List Char → List Char → Bool
  | [], _ => true
  | _ :: _, [] => false
  | a :: as, b :: bs => a = b && charsHasPfx as bs

/-- JavaScript `hay.includes(needle)` on character lists. -/
def charsContains (needle : List Char) : List Char → Bool
  | [] => needle.isEmpty
  | c :: rest => charsHasPfx needle (c :: rest) || charsContains needle rest

/-- Case-sensitive prefix match returning the remainder. -/
def csMatchPfx : List Char → List Char → Option (List Char)
  | [], hay => some hay
  | _ :: _, [] => none
  | a :: as, b :: bs => if a = b then csMatchPfx as bs else none

/-- Case-insensitive prefix match returning the remainder (for the `/i`
flag). -/
def ciMatchPfx : List Char → List Char → Option (List Char)
  | [], hay => some hay
  | _ :: _, [] => none
  | a :: as, b :: bs => if a.toLower = b.toLower then ciMatchPfx as bs else none

/-- The character class `[\\dh\\dm\\ds]` of the double-escaped source regex
`/quota will reset after ([\\dh\\dm\\ds]+)/i`: inside a regex character class
`\\` is a literal backslash, so the class matches exactly the characters
backslash, `d`, `h`, `m`, `s` (case-insensitively) — not digits. -/
def isResetClassChar (c : Char) : Bool :=
  let l := c.toLower
  l = '\\' || l = 'd' || l = 'h' || l = 'm' || l = 's'

/-- The capture of `errorMessage.match(/quota will reset after ([\\dh\\dm\\ds]+)/i)`:
the first position where the literal prefix matches case-insensitively and at
least one class character follows; the capture is the maximal class run. -/
def resetWindowCapture : List Char → Option (List Char)
  | [] => none
  | c :: rest =>
      match ciMatchPfx ("quota will reset after ".toList) (c :: rest) with
      | some tail =>
          let run := tail.takeWhile isResetClassChar
          if run.isEmpty then resetWindowCapture rest else some run
      | none => resetWindowCapture rest

/-- The `([^.]+)\\.` suffix of `/Rate limited on ([^.]+)\\./`: a nonempty
dot-free run, then a literal backslash (the double escape), then any
character. The capture is the greedy (longest) dot-free run that leaves a
backslash with a successor character. -/
def backslashSplitCapture (tail : List Char) : Option (List Char) :=
  let run := tail.takeWhile (fun c => c ≠ '.')
  let js := (List.range run.length).filter fun j =>
    decide (1 ≤ j) && run.get? j = some '\\' && decide (j + 1 < tail.length)
  match js.getLast? with
  | some j => some (run.take j)
  | none => none

/-- The capture of `errorMessage.match(/Rate limited on ([^.]+)\\./)`. -/
def modelCapture1 : List Char → Option (List Char)
  | [] => none
  | c :: rest =>
      match csMatchPfx ("Rate limited on ".toList) (c :: rest) with
      | some tail =>
          match backslashSplitCapture tail with
          | some cap => some cap
          | none => modelCapture1 rest
      | none => modelCapture1 rest

/-- The capture of `errorMessage.match(/\"model\":\\s*\"([^\"]+)\"/)`:
the literal `"model":`, then a literal backslash (double escape), a run of
`s` characters, a quote, a nonempty quote-free capture and a closing quote. -/
def modelCapture2 : List Char → Option (List Char)
  | [] => none
  | c :: rest =>
      match csMatchPfx ("\"model\":".toList) (c :: rest) with
      | some tail =>
          match tail with
          | '\\' :: t1 =>
              match t1.dropWhile (fun c => c = 's') with
              | '"' :: t3 =>
                  let cap := t3.takeWhile (fun c => c ≠ '"')
                  if cap.isEmpty then modelCapture2 rest
                  else if (t3.drop cap.length).head? = some '"' then some cap
                  else modelCapture2 rest
              | _ => modelCapture2 rest
          | _ => modelCapture2 rest
      | none => modelCapture2 rest

/-- The capture of `errorMessage.match(/\"message\":\"([^\"]+)\"/)` (single
escapes only: a plain `"message":"…"` scan). -/
def messageCapture : List Char → Option (List Char)
  | [] => none
  | c :: rest =>
      match csMatchPfx ("\"message\":\"".toList) (c :: rest) with
      | some tail =>
          let cap := tail.takeWhile (fun c => c ≠ '"')
          if cap.isEmpty then messageCapture rest
          else if (tail.drop cap.length).head? = some '"' then some cap
          else messageCapture rest
      | none => messageCapture rest

/-- The classification returned by `parseError`. -/
structure ParsedError where
  errorType : String
  statusCode : Nat
  errorMessage : String
deriving DecidableEq

/-- Embedding of `parseError` from `worker/src/index.js`, on the error message text. -/
def parseError (message : String) : ParsedError :=
  let msg := message.toList
  let has := fun (pat : String) => charsContains pat.toList msg
  if has "401" || has "UNAUTHENTICATED" then
    { errorType := "authentication_error", statusCode := 401,
      errorMessage := "Authentication failed. Make sure your Google account tokens are valid." }
  else if has "429" || has "RESOURCE_EXHAUSTED" || has "QUOTA_EXHAUSTED" then
    let resetMatch := resetWindowCapture msg
    let modelCap := match modelCapture1 msg with
      | some cap => some cap
      | none => modelCapture2 msg
    let modelStr := match modelCap with
      | some cap => String.mk cap
      | none => "the model"
    match resetMatch with
    | some w =>
        { errorType := "invalid_request_error", statusCode := 400,
          errorMessage := "You have exhausted your capacity on " ++ modelStr
            ++ ". Quota will reset after " ++ String.mk w ++ "." }
    | none =>
        { errorType := "invalid_request_error", statusCode := 400,
          errorMessage := "You have exhausted your capacity on " ++ modelStr
            ++ ". Please wait for your quota to reset." }
  else if has "invalid_request_error" || has "INVALID_ARGUMENT" then
    { errorType := "invalid_request_error", statusCode := 400,
      errorMessage := match messageCapture msg with
        | some cap => String.mk cap
        | none => message }
  else if has "All endpoints failed" then
    { errorType := "api_error", statusCode := 503,
      errorMessage := "Unable to connect to Cloud Code API." }
  else if has "PERMISSION_DENIED" then
    { errorType := "permission_error", statusCode := 403,
      errorMessage := "Permission denied. Check your Antigravity/Gemini Code Assist access." }
  else
    { errorType := "api_error", statusCode := 500, errorMessage := message }

/-! ## Account pool state (`WorkerAccountManager` in
`worker/src/account-manager.js`). -/

/-- A per-model rate-limit entry. -/
structure RateLimitEntry where
  isRateLimited : Bool
  resetTime : Option Int
deriving DecidableEq

/-- One pooled account record (the fields the claims touch; `addedAt` is
elided). -/
structure Account where
  email : String
  source : String
  refreshToken : Option String
  apiKey : Option String
  projectId : Option String
  isInvalid : Bool
  invalidReason : Option String
  modelRateLimits : List (String × RateLimitEntry)
  lastUsed : Option Int
deriving DecidableEq

/-- JavaScript truthiness of an optional string field (absent and empty are
falsy). -/
def jsTruthyStr : Option String → Bool
  | some s => s ≠ ""
  | none => false

/-- Association-list lookup (models `Map.get` / object indexing). -/
def lookupKey {α : Type} (entries : List (String × α)) (key : String) : Option α :=
  (entries.find? (fun e => e.1 = key)).map (fun e => e.2)

/-- Association-list insert-or-replace (models `Map.set`). -/
def setKey {α : Type} : List (String × α) → String → α → List (String × α)
  | [], key, v => [(key, v)]
  | (k, w) :: rest, key, v =>
      if k = key then (k, v) :: rest else (k, w) :: setKey rest key v

/-- Modelled from the spec: `markInvalid(account, reason)` of the missing
`src/account-manager/rate-limits.js` — sets `isInvalid` with the failure
reason on the account with the given email, removing it from rotation. -/
def markInvalid (accounts : List Account) (email reason : String) : List Account :=
  accounts.map fun a =>
    if a.email = email then { a with isInvalid := true, invalidReason := some reason }
    else a

/-- Modelled from the spec: an account has an active (unexpired) rate limit
for a model iff its entry has `isRateLimited` with a `resetTime` in the
future (`rate-limits.js` is missing from the snapshot). -/
def hasActiveLimit (a : Account) (now : Int) (modelId : String) : Bool :=
  match lookupKey a.modelRateLimits modelId with
  | some l => l.isRateLimited && (match l.resetTime with
      | some t => decide (now < t)
      | none => false)
  | none => false

/-- Modelled from the spec: `isAllRateLimited(accounts, modelId)` of the
missing `rate-limits.js` — true iff the set of non-invalid accounts is
non-empty and every member has an active limit for the model. -/
def isAllRateLimited (accounts : List Account) (now : Int) (modelId : String) : Bool :=
  let live := accounts.filter fun a => !a.isInvalid
  !live.isEmpty && live.all fun a => hasActiveLimit a now modelId

/-- Modelled from the spec: `resetAllRateLimits` of the missing
`rate-limits.js` — the optimistic reset clears all rate-limit state on every
account. -/
def resetAllRateLimits (accounts : List Account) : List Account :=
  accounts.map fun a => { a with modelRateLimits := [] }

/-- A token-cache entry (`{ token, extractedAt }`). -/
structure TokenCacheEntry where
  token : String
  extractedAt : Int
deriving DecidableEq

/-- Modelled from the spec: the token cache TTL constant
`TOKEN_REFRESH_INTERVAL_MS` of the missing `constants/shared.js`; its exact
value is immaterial to the claims. -/
def TOKEN_REFRESH_INTERVAL_MS : Int := 3600000

/-- The mutable manager state the claims touch: the accounts array and the
token cache (`#accounts`, `#tokenCache`). -/
structure ManagerState where
  accounts : List Account
  tokenCache : List (String × TokenCacheEntry)
deriving DecidableEq

/-- The cache fast path of `getTokenForAccount`: the cached token when the
entry is within the TTL window. -/
def cachedFreshToken (cache : List (String × TokenCacheEntry)) (email : String)
    (now : Int) : Option String :=
  match lookupKey cache email with
  | some c => if now - c.extractedAt < TOKEN_REFRESH_INTERVAL_MS then some c.token else none
  | none => none

/-- The result object of a successful `refreshAccessToken` call (the OAuth
client returns `accessToken`/`expiresIn`; a rotated `refresh_token` would be
surfaced here, absent otherwise). -/
structure RefreshedTokens where
  accessToken : String
  refreshToken : Option String
deriving DecidableEq

/-- A failed `refreshAccessToken` call. `isNetwork` carries the verdict of
`isNetworkError` — modelled from the spec, since `src/utils/helpers.js` is
missing: the spec classifies refresh failures into network/transport failures
versus all others. -/
structure RefreshError where
  message : String
  isNetwork : Bool
deriving DecidableEq

/-- Modelled from the spec: `isNetworkError` of the missing
`src/utils/helpers.js`, read off the error classification. -/
def isNetworkError (e : RefreshError) : Bool := e.isNetwork

/-- The errors `getTokenForAccount` throws, by their classification tag
(`AUTH_NETWORK_ERROR: …` versus `AUTH_INVALID: email: …`). -/
inductive AuthError where
  | authNetworkError (message : String)
  | authInvalid (email message : String)
deriving DecidableEq

/-- In-place mutation of the account object, visible through the accounts
array: every entry with the email of the account is replaced. -/
def updateAccount (accounts : List Account) (acc : Account) : List Account :=
  accounts.map fun a => if a.email = acc.email then acc else a

/-- The refresh-token rotation step of a successful refresh: when the
response carries a (truthy) refresh token different from the stored one, the
in-memory record is updated. -/
def rotatedAccount (account : Account) (tokens : RefreshedTokens) : Account :=
  match tokens.refreshToken with
  | some rt =>
      if jsTruthyStr (some rt) && account.refreshToken ≠ some rt then
        { account with refreshToken := some rt }
      else account
  | none => account

/-- The account record after a successful refresh: rotation, then the
`if (account.isInvalid)` clearing of the invalid flag. -/
def refreshedAccount (account : Account) (tokens : RefreshedTokens) : Account :=
  if (rotatedAccount account tokens).isInvalid then
    { rotatedAccount account tokens with isInvalid := false, invalidReason := none }
  else rotatedAccount account tokens

/-- Embedding of `WorkerAccountManager.getTokenForAccount`, with the awaited
`refreshAccessToken` call replaced by its outcome. Returns the new manager
state and either the token or the thrown classified error. -/
def getTokenForAccount (mgr : ManagerState) (account : Account) (now : Int)
    (refreshResult : Except RefreshError RefreshedTokens) :
    ManagerState × Except AuthError String :=
  match cachedFreshToken mgr.tokenCache account.email now with
  | some t => (mgr, .ok t)
  | none =>
      if account.source = "oauth" && jsTruthyStr account.refreshToken then
        match refreshResult with
        | .ok tokens =>
            ({ accounts := updateAccount mgr.accounts (refreshedAccount account tokens),
               tokenCache := setKey mgr.tokenCache account.email
                 { token := tokens.accessToken, extractedAt := now } },
             .ok tokens.accessToken)
        | .error e =>
            if isNetworkError e then
              (mgr, .error (.authNetworkError e.message))
            else
              ({ accounts := markInvalid mgr.accounts account.email e.message,
                 tokenCache := mgr.tokenCache },
               .error (.authInvalid account.email e.message))
      else if account.source = "manual" && jsTruthyStr account.apiKey then
        ({ accounts := mgr.accounts,
           tokenCache := setKey mgr.tokenCache account.email
             { token := account.apiKey.getD "", extractedAt := now } },
         .ok (account.apiKey.getD ""))
      else
        ({ accounts := markInvalid mgr.accounts account.email
             "Unsupported account source in Workers (use OAuth or manual API key)",
           tokenCache := mgr.tokenCache },
         .error (.authInvalid account.email "unsupported account source"))

/-! ## Project discovery (`project-discovery.js`) and
`WorkerAccountManager.getProjectForAccount`. -/

/-- The outcome of one discovery `fetch` against an endpoint base, as
inspected by `discoverProject`: a non-ok response, an ok response whose
`cloudaicompanionProject` is a string, one whose `cloudaicompanionProject.id`
is present, an ok response with neither field, or a thrown exception. -/
inductive DiscoveryOutcome where
  | httpError (status : Nat)
  | projectString (s : String)
  | projectObjectId (id : String)
  | neitherField
  | threw (message : String)
deriving DecidableEq

/-- An outcome that makes `discoverProject` return (the two project-carrying
shapes). -/
def DiscoveryOutcome.succeedsWith : DiscoveryOutcome → Option String
  | .projectString s => some s
  | .projectObjectId id => some id
  | _ => none

/-- Modelled from the spec: the fixed default project id constant
`DEFAULT_PROJECT_ID` of the missing `constants/shared.js`; its exact value is
immaterial to the claims. -/
def DEFAULT_PROJECT_ID : String := "default-antigravity-project"

/-- Embedding of `discoverProject` from `project-discovery.js`: walk the ordered fallback
endpoint list (`ANTIGRAVITY_ENDPOINT_FALLBACKS`, a missing constant, passed
here explicitly), return the first project-carrying result, and fall back to
the default project id when every endpoint fails. The network call is the
`outcome` oracle. -/
def discoverProject (outcome : String → DiscoveryOutcome) : List String → String
  | [] => DEFAULT_PROJECT_ID
  | ep :: rest =>
      match (outcome ep).succeedsWith with
      | some pid => pid
      | none => discoverProject outcome rest

/-- Embedding of `WorkerAccountManager.getProjectForAccount`, with the project cache
(`#projectCache`) passed explicitly and discovery parameterized as above.
Returns the new cache and the project id. -/
def getProjectForAccount (projectCache : List (String × String)) (account : Account)
    (outcome : String → DiscoveryOutcome) (endpoints : List String) :
    List (String × String) × String :=
  match lookupKey projectCache account.email with
  | some cached => (projectCache, cached)
  | none =>
      match account.projectId with
      | some pid => (setKey projectCache account.email pid, pid)
      | none =>
          let pid := discoverProject outcome endpoints
          (setKey projectCache account.email pid, pid)

/-! ## The worker route dispatch (`fetch` in `worker/src/index.js`). -/

/-- What the route dispatch does with a request, after initialization has
succeeded: a canned JSON error response (`status`, `error.type`,
`error.message`), the CORS preflight `204`, or delegation to one of the
handlers. -/
inductive RouteResult where
  | noContent
  | handledHealth
  | handledAccountLimits
  | handledRefreshToken
  | handledModels
  | handledMessages (body : String)
  | handledChatCompletions (body : String)
  | canned (status : Nat) (errType errMessage : String)
deriving DecidableEq

/-- The `if` chain of `fetch` over method and pathname, on an initialized
gateway (`ensureInitialized` already succeeded; the request body is carried
opaquely and never inspected by the dispatch itself). -/
def routeFetch (method pathname body : String) : RouteResult :=
  if method = "OPTIONS" then .noContent
  else if method = "GET" && pathname = "/health" then .handledHealth
  else if method = "GET" && pathname = "/account-limits" then .handledAccountLimits
  else if method = "POST" && pathname = "/refresh-token" then .handledRefreshToken
  else if method = "GET" && pathname = "/v1/models" then .handledModels
  else if method = "POST" && pathname = "/v1/messages/count_tokens" then
    .canned 501 "not_implemented"
      "Token counting is not implemented. Use /v1/messages with max_tokens or configure your client to skip token counting."
  else if method = "POST" && pathname = "/v1/messages" then .handledMessages body
  else if method = "POST" && pathname = "/v1/chat/completions" then
    .handledChatCompletions body
  else
    .canned 404 "not_found_error"
      ("Endpoint " ++ method ++ " " ++ pathname ++ " not found")

/-! ## `handleMessages` (`worker/src/index.js`). -/

/-- The request body fields `handleMessages` destructures and uses before and
at validation (the remaining pass-through sampling fields are elided). The
`messages` field keeps its raw JSON shape so the `Array.isArray` check can be
expressed. -/
structure MessagesBody where
  model : Option String
  messages : Option Json
  maxTokens : Option Nat
  stream : Bool

/-- The JavaScript check `!messages || !Array.isArray(messages)` passes
exactly when `messages` is present and an array (every non-array JSON value
either is falsy or fails `Array.isArray`). -/
def validMessages : Option Json → Bool
  | some (.arr _) => true
  | _ => false

/-- JavaScript `n || 4096` on an optional number (absent and `0` select the
default). -/
def jsOrNat (n : Option Nat) (d : Nat) : Nat :=
  match n with
  | some k => if k = 0 then d else k
  | none => d

/-- What `handleMessages` does after its scheduler-state preamble: reject
with the 400 invalid-request response, or dispatch the proxy request. -/
inductive MessagesOutcome where
  | invalidRequest (status : Nat) (errType errMessage : String)
  | dispatch (modelId : String) (stream : Bool) (maxTokens : Nat)
deriving DecidableEq

/-- The prefix of `handleMessages` that the claims concern: the default model
id, the all-rate-limited check with its optimistic `resetAllRateLimits`, and
the `messages` validation — in source order, so the optimistic reset runs
before validation. Returns the (possibly mutated) accounts array and the
outcome. -/
def handleMessages (accounts : List Account) (now : Int) (body : MessagesBody) :
    List Account × MessagesOutcome :=
  let modelId := jsOr body.model "claude-3-5-sonnet-20241022"
  let accounts1 :=
    if isAllRateLimited accounts now modelId then resetAllRateLimits accounts
    else accounts
  if !validMessages body.messages then
    (accounts1, .invalidRequest 400 "invalid_request_error"
      "messages is required and must be an array")
  else
    (accounts1, .dispatch modelId body.stream (jsOrNat body.maxTokens 4096))

/-! ## Concrete inputs used by the claim theorems and witnesses. -/

/-- The neutral event sequence of the streaming scenario: thinking block with
delta `x`, then text block with delta `hi`, then `message_delta(end_turn)`
and `message_stop`. -/
def c1Events : List StreamEvent :=
  [.messageStart,
   .contentBlockStart .thinking,
   .contentBlockDelta (.thinkingDelta "x"),
   .contentBlockStop,
   .contentBlockStart .text,
   .contentBlockDelta (.textDelta "hi"),
   .contentBlockStop,
   .messageDelta (some "end_turn") none,
   .messageStop]

/-- The chunk sequence the transcoder emits for `c1Events`: role preamble,
opening thinking delimiter, the thinking content, closing delimiter, the
plain text, the finish-reason chunk, and the single terminal marker. -/
def c1ExpectedChunks (cid model : String) : List OutChunk :=
  [mkChunk cid model (.roleContent "assistant" ""),
   mkChunk cid model (.content "<thinking>\n"),
   mkChunk cid model (.content "x"),
   mkChunk cid model (.content "\n</thinking>\n"),
   mkChunk cid model (.content "hi"),
   messageDeltaChunk cid model "stop" none,
   .done]

/-- A manual account that has been marked invalid but still carries its
static key. -/
def c5Account : Account :=
  { email := "manual@example.com", source := "manual", refreshToken := none,
    apiKey := some "key-123", projectId := none, isInvalid := true,
    invalidReason := some "previously rejected", modelRateLimits := [],
    lastUsed := none }

/-- A one-account pool holding `c5Account`, with an empty token cache. -/
def c5Mgr : ManagerState := { accounts := [c5Account], tokenCache := [] }

/-- An upstream rate-limit error message that carries a human-readable reset
window beginning with a digit. -/
def c6Input : String :=
  "Request failed with status 429: RESOURCE_EXHAUSTED. Your quota will reset after 2h30m."

/-- An OAuth account used by the token-refresh witnesses. -/
def c3Account : Account :=
  { email := "oauth@example.com", source := "oauth",
    refreshToken := some "rt-1", apiKey := none, projectId := none,
    isInvalid := false, invalidReason := none, modelRateLimits := [],
    lastUsed := none }

/-- A one-account pool holding `c3Account`, with an empty token cache. -/
def c3Mgr : ManagerState := { accounts := [c3Account], tokenCache := [] }

/-- A response carrying one text block and one tool invocation whose stop
reason is `end_turn`. -/
def c4Resp : AnthropicResponse :=
  { id := some "msg_1",
    content := [.toolUse "call_1" "lookup" none, .text "ok"],
    stopReason := some "end_turn",
    usageInputTokens := 1, usageCacheReadInputTokens := 0, usageOutputTokens := 2 }

/-- A stream prefix that starts a tool-use content block. -/
def c4Pre : List StreamEvent :=
  [.messageStart,
   .contentBlockStart (.toolUse "call_1" "lookup"),
   .contentBlockDelta (.inputJsonDelta "[1]")]

/-- An assistant message carrying one function tool call whose arguments are
not valid JSON. -/
def c8Msg : OAIMessage :=
  { role := "assistant", content := .nullContent,
    toolCalls := [{ id := "call_9", callType := "function", name := "fn",
                    arguments := .str "not-json" }],
    toolCallId := none }

/-- A rate-limited account used by the `handleMessages` witness. -/
def c10Account : Account :=
  { email := "limited@example.com", source := "oauth",
    refreshToken := some "rt", apiKey := none, projectId := none,
    isInvalid := false, invalidReason := none,
    modelRateLimits := [("claude-x", { isRateLimited := true, resetTime := some 1000 })],
    lastUsed := none }

/-- An account with a configured project id. -/
def c7Account : Account :=
  { email := "cfg@example.com", source := "oauth", refreshToken := some "rt",
    apiKey := none, projectId := some "p-cfg", isInvalid := false,
    invalidReason := none, modelRateLimits := [], lastUsed := none }

/-- A request body without a `messages` array. -/
def c10Body : MessagesBody :=
  { model := some "claude-x", messages := none, maxTokens := none, stream := false }

/-! ## Helper lemmas. -/

theorem convertGo_append (cid model : String) (s : ConvState) (xs ys : List StreamEvent) :
    convertGo cid model s (xs ++ ys)
      = convertGo cid model s xs ++ convertGo cid model (runState cid model s xs) ys := by
  induction xs generalizing s with
  | nil => rfl
  | cons e rest ih => simp [convertGo, runState, ih]

theorem mapStopReason_true (stopReason : Option String) :
    mapStopReason stopReason true = "tool_calls" := by
  simp [mapStopReason]

/-- The step function never decreases the running tool-call index. -/
theorem processEvent_toolIdx_le (cid model : String) (s : ConvState) (e : StreamEvent) :
    s.currentToolCallIndex ≤ ((processEvent cid model s e).1).currentToolCallIndex := by
  cases e with
  | messageStart => simp [processEvent]
  | contentBlockStart kind => cases kind <;> simp [processEvent]
  | contentBlockDelta d => cases d <;> simp [processEvent]
  | contentBlockStop =>
      by_cases h : s.inThinking <;> simp [processEvent, h]
  | messageDelta sr u => simp [processEvent]
  | messageStop => simp [processEvent]
  | error p => simp [processEvent]
  | unknown => simp [processEvent]

theorem runState_toolIdx_le (cid model : String) (s : ConvState) (es : List StreamEvent) :
    s.currentToolCallIndex ≤ (runState cid model s es).currentToolCallIndex := by
  induction es generalizing s with
  | nil => simp [runState]
  | cons e rest ih =>
      calc s.currentToolCallIndex
          ≤ ((processEvent cid model s e).1).currentToolCallIndex :=
            processEvent_toolIdx_le cid model s e
        _ ≤ (runState cid model (processEvent cid model s e).1 rest).currentToolCallIndex :=
            ih _

/-- After a `content_block_start(tool_use)` has been consumed, the tool-call
index is non-negative. -/
theorem runState_toolIdx_nonneg (cid model : String) (s : ConvState)
    (es : List StreamEvent) (id name : String)
    (hs : -1 ≤ s.currentToolCallIndex)
    (hmem : StreamEvent.contentBlockStart (.toolUse id name) ∈ es) :
    0 ≤ (runState cid model s es).currentToolCallIndex := by
  induction es generalizing s with
  | nil => cases hmem
  | cons e rest ih =>
      have hrun : runState cid model s (e :: rest)
          = runState cid model (processEvent cid model s e).1 rest := rfl
      rcases List.mem_cons.mp hmem with he | hrest
      · subst he
        have hstep : 0 ≤ ((processEvent cid model s
            (StreamEvent.contentBlockStart (.toolUse id name))).1).currentToolCallIndex := by
          simp [processEvent]; omega
        rw [hrun]
        exact le_trans hstep (runState_toolIdx_le cid model _ rest)
      · rw [hrun]
        exact ih _ (le_trans hs (processEvent_toolIdx_le cid model s e)) hrest

theorem rotatedAccount_email (account : Account) (tokens : RefreshedTokens) :
    (rotatedAccount account tokens).email = account.email := by
  unfold rotatedAccount
  cases tokens.refreshToken with
  | none => rfl
  | some rt => split <;> (try split) <;> rfl

theorem refreshedAccount_email (account : Account) (tokens : RefreshedTokens) :
    (refreshedAccount account tokens).email = account.email := by
  unfold refreshedAccount
  split <;> simp [rotatedAccount_email]

theorem refreshedAccount_isInvalid (account : Account) (tokens : RefreshedTokens) :
    (refreshedAccount account tokens).isInvalid = false := by
  unfold refreshedAccount
  split
  · rfl
  · simp_all

theorem lookupKey_setKey {α : Type} (entries : List (String × α)) (key : String) (v : α) :
    lookupKey (setKey entries key v) key = some v := by
  induction entries with
  | nil => simp [setKey, lookupKey]
  | cons p rest ih =>
      by_cases h : p.1 = key
      · simp [setKey, lookupKey, h]
      · simp [setKey, lookupKey, List.find?, h] at ih ⊢
        exact ih

/-! ## Claim theorems. -/

/-- C1: for the neutral event sequence `[message_start,
content_block_start(thinking), content_block_delta(thinking, x),
content_block_stop, content_block_start(text), content_block_delta(text, hi),
content_block_stop, message_delta(end_turn), message_stop]`, the streaming
transcoder `convertStreamToOpenAI` produces exactly the expected chunk list:
the thinking content `x` sits between the opening `<thinking>` and closing
`</thinking>` delimiter chunks while the plain text `hi` does not, and the
output ends in exactly one terminal `[DONE]` marker. -/
theorem claim1_stream_thinking_scenario (cid model : String) :
    convertStreamToOpenAI cid model c1Events = c1ExpectedChunks cid model
    ∧ ((convertStreamToOpenAI cid model c1Events).filter isDoneChunk).length = 1
    ∧ (convertStreamToOpenAI cid model c1Events).getLast? = some .done :=
  ⟨rfl, rfl, rfl⟩

/-- C2: an `error` event arriving after the stream has begun (some events
precede it) yields exactly one error-carrying chunk followed immediately by
the terminal `[DONE]` marker: the emitted stream decomposes into the chunks
of the prefix, then the error chunk, then `[DONE]`, then the chunks of the
remaining events — so the stream is well-terminated even on failure. -/
theorem claim2_stream_error_terminated (cid model : String)
    (pre post : List StreamEvent) (payload : Option ErrInfo) (h : pre ≠ []) :
    convertStreamToOpenAI cid model (pre ++ .error payload :: post)
      = convertStreamToOpenAI cid model pre
        ++ errorChunk cid model payload :: .done
          :: convertGo cid model (runState cid model initConvState pre) post
    ∧ carriesError (errorChunk cid model payload) = true
    ∧ ∀ c, carriesError c = true → isDoneChunk c = false := by
  refine ⟨?_, rfl, ?_⟩
  · rw [convertStreamToOpenAI, convertGo_append]
    rfl
  · intro c hc
    cases c with
    | data d => rfl
    | done => simp [carriesError] at hc

/-- C2 witness: a concrete stream that begins with `message_start` and then
fails. -/
theorem claim2_witness :
    convertStreamToOpenAI "c" "m"
        ([StreamEvent.messageStart] ++ .error (some ⟨some "boom", none⟩) :: [])
      = convertStreamToOpenAI "c" "m" [StreamEvent.messageStart]
        ++ errorChunk "c" "m" (some ⟨some "boom", none⟩) :: .done
          :: convertGo "c" "m"
              (runState "c" "m" initConvState [StreamEvent.messageStart]) []
    ∧ carriesError (errorChunk "c" "m" (some ⟨some "boom", none⟩)) = true
    ∧ ∀ c, carriesError c = true → isDoneChunk c = false :=
  claim2_stream_error_terminated "c" "m" [StreamEvent.messageStart] []
    (some ⟨some "boom", none⟩) (List.cons_ne_nil _ _)

/-- C3: when the token refresh fails for an OAuth account on a cache miss,
`getTokenForAccount` classifies the failure: a network/transport error is
surfaced as the retryable `AUTH_NETWORK_ERROR` and the pool state is left
untouched (the account is not marked invalid); any other refresh failure
marks the account invalid with the failure reason and is surfaced as the
non-retryable `AUTH_INVALID` for that account. -/
theorem claim3_refresh_failure_classified (mgr : ManagerState) (account : Account)
    (now : Int) (e : RefreshError)
    (hc : cachedFreshToken mgr.tokenCache account.email now = none)
    (hsrc : account.source = "oauth")
    (hrt : jsTruthyStr account.refreshToken = true) :
    (isNetworkError e = true →
      getTokenForAccount mgr account now (.error e)
        = (mgr, .error (.authNetworkError e.message)))
    ∧ (isNetworkError e = false →
      getTokenForAccount mgr account now (.error e)
        = ({ accounts := markInvalid mgr.accounts account.email e.message,
             tokenCache := mgr.tokenCache },
           .error (.authInvalid account.email e.message))
      ∧ ∀ a ∈ markInvalid mgr.accounts account.email e.message,
          a.email = account.email →
          a.isInvalid = true ∧ a.invalidReason = some e.message) := by
  constructor
  · intro hnet
    simp [getTokenForAccount, hc, hsrc, hrt, hnet]
  · intro hnet
    constructor
    · simp [getTokenForAccount, hc, hsrc, hrt, hnet]
    · intro a ha hemail
      rcases List.mem_map.mp ha with ⟨b, hb, hba⟩
      by_cases hbe : b.email = account.email
      · simp [hbe] at hba
        rw [← hba]
        exact ⟨rfl, rfl⟩
      · simp [hbe] at hba
        rw [← hba] at hemail
        exact absurd hemail hbe

/-- C3 witness: a concrete network failure is surfaced as retryable without
touching the pool. -/
theorem claim3_witness :
    getTokenForAccount c3Mgr c3Account 0 (.error { message := "timeout", isNetwork := true })
      = (c3Mgr, .error (.authNetworkError "timeout")) :=
  (claim3_refresh_failure_classified c3Mgr c3Account 0
    { message := "timeout", isNetwork := true } rfl rfl rfl).1 rfl

/-- C4: a tool invocation forces the `tool_calls` finish reason regardless of
the underlying stop reason — in the non-streaming converter whenever the
response content holds a `tool_use` block, and in the streaming transcoder
for the finish-reason chunk emitted on `message_delta` whenever a
`content_block_start(tool_use)` occurred earlier in the stream. -/
theorem claim4_tool_calls_forced :
    (∀ (resp : AnthropicResponse) (model : String),
      (∃ id name input, RespBlock.toolUse id name input ∈ resp.content) →
      (convertAnthropicToOpenAI resp model).finishReason = "tool_calls")
    ∧ (∀ (cid model : String) (pre post : List StreamEvent) (sr : Option String)
        (u : Option Nat) (id name : String),
      StreamEvent.contentBlockStart (.toolUse id name) ∈ pre →
      convertStreamToOpenAI cid model (pre ++ .messageDelta sr u :: post)
        = convertStreamToOpenAI cid model pre
          ++ messageDeltaChunk cid model "tool_calls" u
            :: convertGo cid model (runState cid model initConvState pre) post) := by
  constructor
  · rintro resp model ⟨id, name, input, hmem⟩
    have hx : (⟨id, name, input.getD (Json.obj [])⟩ : ToolCall)
        ∈ (convertContentBlocks resp.content).2 := by
      simp only [convertContentBlocks]
      exact List.mem_filterMap.mpr ⟨_, hmem, rfl⟩
    have hlen : 0 < (convertContentBlocks resp.content).2.length :=
      List.length_pos.mpr (List.ne_nil_of_mem hx)
    simp [convertAnthropicToOpenAI, hlen, mapStopReason_true]
  · intro cid model pre post sr u id name hmem
    have hidx : 0 ≤ (runState cid model initConvState pre).currentToolCallIndex :=
      runState_toolIdx_nonneg cid model initConvState pre id name (by simp [initConvState]) hmem
    rw [convertStreamToOpenAI, convertGo_append]
    have hstep : convertGo cid model (runState cid model initConvState pre)
        (StreamEvent.messageDelta sr u :: post)
        = messageDeltaChunk cid model "tool_calls" u
          :: convertGo cid model (runState cid model initConvState pre) post := by
      simp [convertGo, processEvent, decide_eq_true hidx, mapStopReason_true]
    rw [hstep]
    rfl

/-- C4 witness: the forcing observed on a concrete response with stop reason
`end_turn` and on a concrete stream with a tool-use block start. -/
theorem claim4_witness :
    (convertAnthropicToOpenAI c4Resp "m").finishReason = "tool_calls"
    ∧ convertStreamToOpenAI "c" "m" (c4Pre ++ .messageDelta (some "end_turn") none :: [])
      = convertStreamToOpenAI "c" "m" c4Pre
        ++ messageDeltaChunk "c" "m" "tool_calls" none
          :: convertGo "c" "m" (runState "c" "m" initConvState c4Pre) [] :=
  ⟨claim4_tool_calls_forced.1 c4Resp "m" ⟨"call_1", "lookup", none, List.Mem.head _⟩,
   claim4_tool_calls_forced.2 "c" "m" c4Pre [] (some "end_turn") none "call_1" "lookup"
     (List.mem_cons.mpr (Or.inr (List.Mem.head _)))⟩

/-- C5 counterexample: a manual account that is flagged invalid still has its
credential resolution succeed (the static key is returned) while `isInvalid`
stays `true` afterwards — so a successful resolution does not always clear
the flag. -/
theorem claim5_counterexample :
    (getTokenForAccount c5Mgr c5Account 0
        (.error { message := "unused", isNetwork := false })).2 = .ok "key-123"
    ∧ (getTokenForAccount c5Mgr c5Account 0
        (.error { message := "unused", isNetwork := false })).1.accounts = [c5Account]
    ∧ c5Account.isInvalid = true :=
  ⟨rfl, rfl, rfl⟩

/-- C5 amended: only a successful OAuth refresh-token exchange (cache miss on
an oauth account) clears the `isInvalid` flag; a token served from cache or a
manual account key leaves it unchanged. After such a successful refresh the
account record carries `isInvalid = false`. -/
theorem claim5_amended_refresh_clears_invalid (mgr : ManagerState) (account : Account)
    (now : Int) (tokens : RefreshedTokens)
    (hc : cachedFreshToken mgr.tokenCache account.email now = none)
    (hsrc : account.source = "oauth")
    (hrt : jsTruthyStr account.refreshToken = true) :
    (getTokenForAccount mgr account now (.ok tokens)).2 = .ok tokens.accessToken
    ∧ ∀ a ∈ (getTokenForAccount mgr account now (.ok tokens)).1.accounts,
        a.email = account.email → a.isInvalid = false := by
  have hrw : getTokenForAccount mgr account now (.ok tokens)
      = ({ accounts := updateAccount mgr.accounts (refreshedAccount account tokens),
           tokenCache := setKey mgr.tokenCache account.email
             { token := tokens.accessToken, extractedAt := now } },
         .ok tokens.accessToken) := by
    simp [getTokenForAccount, hc, hsrc, hrt]
  refine ⟨by rw [hrw], ?_⟩
  intro a ha hemail
  rw [hrw] at ha
  rcases List.mem_map.mp ha with ⟨b, hb, hba⟩
  by_cases hbe : b.email = (refreshedAccount account tokens).email
  · rw [if_pos hbe] at hba
    rw [← hba]
    exact refreshedAccount_isInvalid account tokens
  · rw [if_neg hbe] at hba
    rw [← hba] at hemail
    rw [refreshedAccount_email account tokens] at hbe
    exact absurd hemail hbe

/-- C5 amended witness: after a concrete successful refresh for an OAuth
account the returned token is the new access token and the stored account is
not invalid. -/
theorem claim5_amended_witness :
    (getTokenForAccount c3Mgr c3Account 0
        (.ok { accessToken := "at-9", refreshToken := none })).2 = .ok "at-9"
    ∧ ∀ a ∈ (getTokenForAccount c3Mgr c3Account 0
        (.ok { accessToken := "at-9", refreshToken := none })).1.accounts,
        a.email = c3Account.email → a.isInvalid = false :=
  claim5_amended_refresh_clears_invalid c3Mgr c3Account 0
    { accessToken := "at-9", refreshToken := none } rfl rfl rfl

/-- C6: on the failing input — an upstream error mentioning `429` and
`RESOURCE_EXHAUSTED` whose text carries the reset window `2h30m` — `parseError`
does map to the non-retry-suggesting 400 `invalid_request_error`, but it drops
the reset window: the double-escaped regex class `[\\dh\\dm\\ds]` matches only
the literal characters backslash, d, h, m, s, so a window starting with a
digit never matches and the generic message is returned instead. -/
theorem claim6_reset_window_dropped :
    parseError c6Input
      = { errorType := "invalid_request_error", statusCode := 400,
          errorMessage := "You have exhausted your capacity on the model. Please wait for your quota to reset." }
    ∧ resetWindowCapture c6Input.toList = none
    ∧ charsContains ("2h30m".toList) (c6Input.toList) = true :=
  ⟨by decide, by decide, by decide⟩

/-- C7: project resolution returns the configured `projectId` of the account when
present and caches it; otherwise it runs discovery over the ordered endpoint
list, returning the first successful result; and when every endpoint fails it
returns the fixed default project id instead of raising an error. -/
theorem claim7_project_resolution :
    (∀ (cache : List (String × String)) (account : Account)
        (oc : String → DiscoveryOutcome) (eps : List String) (pid : String),
      lookupKey cache account.email = none → account.projectId = some pid →
      getProjectForAccount cache account oc eps = (setKey cache account.email pid, pid)
        ∧ lookupKey (setKey cache account.email pid) account.email = some pid)
    ∧ (∀ (cache : List (String × String)) (account : Account)
        (oc : String → DiscoveryOutcome) (eps : List String),
      lookupKey cache account.email = none → account.projectId = none →
      getProjectForAccount cache account oc eps
        = (setKey cache account.email (discoverProject oc eps), discoverProject oc eps))
    ∧ (∀ (oc : String → DiscoveryOutcome) (pre post : List String) (ep pid : String),
      (∀ q ∈ pre, (oc q).succeedsWith = none) → (oc ep).succeedsWith = some pid →
      discoverProject oc (pre ++ ep :: post) = pid)
    ∧ (∀ (oc : String → DiscoveryOutcome) (eps : List String),
      (∀ q ∈ eps, (oc q).succeedsWith = none) →
      discoverProject oc eps = DEFAULT_PROJECT_ID) := by
  refine ⟨?_, ?_, ?_, ?_⟩
  · intro cache account oc eps pid hmiss hpid
    exact ⟨by simp [getProjectForAccount, hmiss, hpid], lookupKey_setKey cache _ pid⟩
  · intro cache account oc eps hmiss hpid
    simp [getProjectForAccount, hmiss, hpid]
  · intro oc pre post ep pid hpre hep
    induction pre with
    | nil => simp [discoverProject, hep]
    | cons q rest ih =>
        have hq : (oc q).succeedsWith = none := hpre q (List.Mem.head _)
        have hrest : ∀ r ∈ rest, (oc r).succeedsWith = none :=
          fun r hr => hpre r (List.mem_cons.mpr (Or.inr hr))
        simpa [discoverProject, hq] using ih hrest
  · intro oc eps hall
    induction eps with
    | nil => rfl
    | cons q rest ih =>
        have hq : (oc q).succeedsWith = none := hall q (List.Mem.head _)
        have hrest : ∀ r ∈ rest, (oc r).succeedsWith = none :=
          fun r hr => hall r (List.mem_cons.mpr (Or.inr hr))
        simpa [discoverProject, hq] using ih hrest

/-- C7 witness: a configured project id is returned and cached; discovery on
a two-endpoint list skips a failing endpoint, takes the first success, and
falls back to the default when both fail. -/
theorem claim7_witness :
    (getProjectForAccount [] c7Account (fun _ => .httpError 404) ["e1"]
        = (setKey [] c7Account.email "p-cfg", "p-cfg")
      ∧ lookupKey (setKey [] c7Account.email "p-cfg") c7Account.email = some "p-cfg")
    ∧ discoverProject
        (fun ep => if ep = "e1" then .httpError 500 else .projectString "p-found")
        (["e1"] ++ "e2" :: []) = "p-found"
    ∧ discoverProject (fun _ => .threw "down") ["e1", "e2"] = DEFAULT_PROJECT_ID := by
  refine ⟨?_, ?_, ?_⟩
  · exact claim7_project_resolution.1 [] c7Account
      (fun _ => .httpError 404) ["e1"] "p-cfg" rfl rfl
  · exact claim7_project_resolution.2.2.1
      (fun ep => if ep = "e1" then .httpError 500 else .projectString "p-found")
      ["e1"] [] "e2" "p-found" (by intro q hq; fin_cases hq <;> rfl) (by rfl)
  · exact claim7_project_resolution.2.2.2 (fun _ => .threw "down") ["e1", "e2"]
      (by intro q hq; fin_cases hq <;> rfl)

/-- C8: an assistant message carrying tool invocations converts to `tool_use`
blocks whose input is the parsed-JSON argument value; when the argument
string fails to parse, the original string is preserved verbatim under the
fallback field (`{ raw: s }`) rather than dropped. -/
theorem claim8_tool_args_fallback (parseJson : String → Option Json) (msg : OAIMessage)
    (hrole : msg.role = "assistant") (htc : msg.toolCalls ≠ []) :
    convertMessages parseJson [msg]
      = [{ role := "assistant",
           content := .blocks (assistantTextBlocks msg.content
             ++ msg.toolCalls.filterMap fun tc =>
                 if tc.callType = "function" then
                   some (.toolUse tc.id tc.name (toolArgsValue parseJson tc.arguments))
                 else none) }]
    ∧ (∀ s, parseJson s = none →
        toolArgsValue parseJson (.str s) = Json.obj [("raw", Json.str s)])
    ∧ (∀ s v, parseJson s = some v → toolArgsValue parseJson (.str s) = v) := by
  refine ⟨?_, ?_, ?_⟩
  · have hne : msg.toolCalls.isEmpty = false := by
      cases hmt : msg.toolCalls with
      | nil => exact absurd hmt htc
      | cons a l => rfl
    simp [convertMessages, hrole, hne]
  · intro s hs
    simp [toolArgsValue, hs]
  · intro s v hs
    simp [toolArgsValue, hs]

/-- C8 witness: a concrete assistant message with one function tool call
whose arguments fail to parse. -/
theorem claim8_witness :
    convertMessages (fun _ => none) [c8Msg]
      = [{ role := "assistant",
           content := .blocks (assistantTextBlocks c8Msg.content
             ++ c8Msg.toolCalls.filterMap fun tc =>
                 if tc.callType = "function" then
                   some (.toolUse tc.id tc.name (toolArgsValue (fun _ => none) tc.arguments))
                 else none) }]
    ∧ toolArgsValue (fun _ => none) (.str "not-json")
        = Json.obj [("raw", Json.str "not-json")] :=
  ⟨(claim8_tool_args_fallback (fun _ => none) c8Msg rfl (List.cons_ne_nil _ _)).1,
   (claim8_tool_args_fallback (fun _ => none) c8Msg rfl
      (List.cons_ne_nil _ _)).2.1 "not-json" rfl⟩

/-- C9: on an initialized gateway, every POST to `/v1/messages/count_tokens`
is answered by the canned 501 response whose error condition is
`not_implemented`, independently of the request body. -/
theorem claim9_count_tokens_not_implemented (body : String) :
    routeFetch "POST" "/v1/messages/count_tokens" body
      = .canned 501 "not_implemented"
          "Token counting is not implemented. Use /v1/messages with max_tokens or configure your client to skip token counting." :=
  rfl

/-- C10: in `handleMessages` the all-rate-limited check and its optimistic
`resetAllRateLimits` run before the messages-array validation: when every
account is rate-limited for the requested model and the body lacks a valid
messages array, the rate limits are cleared (scheduler state mutated) even
though the request is then rejected with the 400 invalid-request error. -/
theorem claim10_reset_before_validation (accounts : List Account) (now : Int)
    (body : MessagesBody)
    (hall : isAllRateLimited accounts now (jsOr body.model "claude-3-5-sonnet-20241022") = true)
    (hbad : validMessages body.messages = false) :
    handleMessages accounts now body
      = (resetAllRateLimits accounts,
         .invalidRequest 400 "invalid_request_error"
           "messages is required and must be an array")
    ∧ ∀ a ∈ resetAllRateLimits accounts, a.modelRateLimits = [] := by
  constructor
  · simp [handleMessages, hall, hbad]
  · intro a ha
    rcases List.mem_map.mp ha with ⟨b, hb, hba⟩
    rw [← hba]

/-- C10 witness: one fully rate-limited account and a body without a
`messages` array — the limit entry is wiped while the request is rejected. -/
theorem claim10_witness :
    handleMessages [c10Account] 0 c10Body
      = (resetAllRateLimits [c10Account],
         .invalidRequest 400 "invalid_request_error"
           "messages is required and must be an array")
    ∧ ∀ a ∈ resetAllRateLimits [c10Account], a.modelRateLimits = [] :=
  claim10_reset_before_validation [c10Account] 0 c10Body (by decide) rfl

end AGProxy
